import Mathlib

/-!
Shallow embedding of `src/dicomjson/dicom2json.py` (fr-froussel/DicomJson).

The program converts DICOM files to a JSON metadata document plus an
optional extracted PNG image, and writes a manifest for the whole batch.
We model a parsed DICOM file as a record carrying the four pixel-relevant
fields (as the typed values `dicom_dataset.get(...)` returns, `Option`
for absence) together with the generic field mappings (`file_meta` and
the main dataset) used for redaction and JSON serialization.  File writes
are modelled as explicit components of the result records, logging as a
list of levelled messages, and Python exceptions as an `Option String`
fatal component.  Python truthiness on the extracted values is modelled
explicitly (`0`, the empty byte string and absence are falsy).
-/

namespace DicomJson

/-- A primitive DICOM field value: integer, decimal (mantissa and
decimal exponent), string, or binary byte buffer. -/
inductive DicomValue where
  | intV (n : Int)
  | decV (mantissa : Int) (exponent : Int)
  | strV (s : String)
  | bytesV (bs : List Nat)
deriving DecidableEq, Repr

/-- Python truthiness of a field value returned by `Dataset.get`:
zero numbers, the empty string and the empty byte buffer are falsy. -/
def truthyV : DicomValue → Bool
  | .intV n => n != 0
  | .decV m _ => m != 0
  | .strV s => !s.isEmpty
  | .bytesV bs => !bs.isEmpty

/-- Python truthiness of `dicom_dataset.get(...)` for a numeric field:
`None` (absent) and `0` are falsy. -/
def truthyNat : Option Nat → Bool
  | some n => n != 0
  | none => false

/-- Python truthiness of `dicom_dataset.get('PixelData')`: `None`
(absent) and the zero-length byte string are falsy. -/
def truthyBytes : Option (List Nat) → Bool
  | some bs => !bs.isEmpty
  | none => false

/-- JSON values, as an abstract syntax tree (the textual rendering done
by `json.dumps` in `my_json_dumps` is abstracted away).  Decimal numbers
carry a mantissa and a decimal exponent. -/
inductive Json where
  | jnull
  | jint (n : Int)
  | jnum (mantissa : Int) (exponent : Int)
  | jstr (s : String)
  | jarr (elements : List Json)
  | jobj (fields : List (String × Json))

/-- Hex digit character for a value below 16: a decimal digit for values
below ten, a lowercase letter from 'a' for the rest. -/
def hexDigit (n : Nat) : Char :=
  if n < 10 then Char.ofNat (48 + n) else Char.ofNat (87 + n)

/-- Numeric value of a hex digit character (decimal digits and lowercase
letters up to 'f'), none for any other character. -/
def hexVal (ch : Char) : Option Nat :=
  if 48 ≤ ch.toNat ∧ ch.toNat ≤ 57 then some (ch.toNat - 48)
  else if 97 ≤ ch.toNat ∧ ch.toNat ≤ 102 then some (ch.toNat - 87)
  else none

/-- Hex-encode a byte buffer, two characters per byte. -/
def encodeHexBytes : List Nat → List Char
  | [] => []
  | b :: rest => hexDigit (b / 16) :: hexDigit (b % 16) :: encodeHexBytes rest

/-- Decode a hex character sequence back to bytes. -/
def decodeHexBytes : List Char → Option (List Nat)
  | [] => some []
  | c1 :: c2 :: rest =>
    match hexVal c1, hexVal c2 with
    | some h, some l => (decodeHexBytes rest).map (fun bs => (16 * h + l) :: bs)
    | _, _ => none
  | _ => none

/-- Modelled from the spec: `Dataset.to_json_dict` (pydicom, not part of
this repository's sources) serializes each field to a JSON object tagged
with its value representation, binary blobs encoded as a string (the
spec allows base64 or hex; hex is used here). -/
def encodeValue : DicomValue → Json
  | .intV n => .jobj [("vr", .jstr "IS"), ("Value", .jarr [.jint n])]
  | .decV m e => .jobj [("vr", .jstr "DS"), ("Value", .jarr [.jnum m e])]
  | .strV s => .jobj [("vr", .jstr "LO"), ("Value", .jarr [.jstr s])]
  | .bytesV bs =>
    .jobj [("vr", .jstr "OB"), ("InlineBinary", .jstr (String.mk (encodeHexBytes bs)))]

/-- Serialize a field mapping: each field keeps its key, its value is
encoded by `encodeValue`. -/
def encodeFields (m : List (String × DicomValue)) : List (String × Json) :=
  m.map (fun kv => (kv.1, encodeValue kv.2))

/-- Modelled from the spec: re-parsing one serialized field value, the
inverse direction of `encodeValue`, directed by the value-representation
tag. -/
def decodeValue : Json → Option DicomValue
  | .jobj [("vr", .jstr "IS"), ("Value", .jarr [.jint n])] => some (.intV n)
  | .jobj [("vr", .jstr "DS"), ("Value", .jarr [.jnum m e])] => some (.decV m e)
  | .jobj [("vr", .jstr "LO"), ("Value", .jarr [.jstr s])] => some (.strV s)
  | .jobj [("vr", .jstr "OB"), ("InlineBinary", .jstr s)] =>
    (decodeHexBytes s.data).map DicomValue.bytesV
  | _ => none

/-- Re-parse a serialized field list, failing if any value fails. -/
def decodeFields : List (String × Json) → Option (List (String × DicomValue))
  | [] => some []
  | (k, j) :: rest =>
    match decodeValue j, decodeFields rest with
    | some v, some vs => some ((k, v) :: vs)
    | _, _ => none

/-- Re-parse a serialized mapping (a JSON object of fields). -/
def decodeMapping : Json → Option (List (String × DicomValue))
  | .jobj kvs => decodeFields kvs
  | _ => none

/-- A byte buffer is wellformed when every entry is an actual byte. -/
def wellformedValue : DicomValue → Bool
  | .bytesV bs => bs.all (fun b => b < 256)
  | _ => true

/-- A mapping is wellformed when all its values are. -/
def wellformedMapping (m : List (String × DicomValue)) : Bool :=
  m.all (fun kv => wellformedValue kv.2)

/-- A parsed DICOM file: source file name and stem, the technical
`file_meta` mapping, the main dataset mapping, and the four
pixel-relevant values as `dicom_dataset.get(...)` returns them. -/
structure DicomFile where
  name : String
  stem : String
  meta : List (String × DicomValue)
  data : List (String × DicomValue)
  rows : Option Nat
  columns : Option Nat
  bitsStored : Option Nat
  pixelData : Option (List Nat)

/-- One log message, with its level. -/
inductive LogMsg where
  | debugMsg (s : String)
  | warnMsg (s : String)
  | errMsg (s : String)
deriving DecidableEq, Repr

/-- Whether a log message is a warning. -/
def isWarning : LogMsg → Bool
  | .warnMsg _ => true
  | _ => false

/-- Whether a log message is an error. -/
def isError : LogMsg → Bool
  | .errMsg _ => true
  | _ => false

/-- `DicomConvertedData` from the source: one manifest entry, with the
image path (`None` when no image was produced), the source file name,
and the metadata JSON path. -/
structure DicomConvertedData where
  image : Option String
  output : String
  template : String
deriving DecidableEq, Repr

/-- Modelled from the spec: the `constants` module is not in `src/`;
per the spec the output directory is fixed relative to the install
location. -/
def DEFAULT_OUTPUT_DIR : String := "output"

/-- Modelled from the spec: metadata output path, same stem with the
`.json` suffix under the output directory (`JsonConstants.SUFFIX`). -/
def jsonPathOf (stem : String) : String :=
  DEFAULT_OUTPUT_DIR ++ "/" ++ stem ++ ".json"

/-- Modelled from the spec: image output path, same stem with the
`.png` suffix under the output directory (`PngConstants.SUFFIX`). -/
def pngPathOf (stem : String) : String :=
  DEFAULT_OUTPUT_DIR ++ "/" ++ stem ++ ".png"

/-- Modelled from the spec: the manifest path
`<outputDir>/_dicom2json.json`. -/
def manifestPath : String :=
  DEFAULT_OUTPUT_DIR ++ "/_dicom2json.json"

/-- Remove the first field with the given key, as `Dataset.pop` does
(field identifiers are unique within a record). -/
def popField (k : String) : List (String × DicomValue) → List (String × DicomValue)
  | [] => []
  | (k1, v) :: rest => if k1 = k then rest else (k1, v) :: popField k rest

/-- `if dicom_dataset.get(name):` — the field is looked up and its value
tested for truthiness.  Absence gives `None`, which is falsy. -/
def getTruthy (ds : List (String × DicomValue)) (name : String) : Bool :=
  match List.lookup name ds with
  | some v => truthyV v
  | none => false

/-- The redaction loop of `convert_dicom_to_data`: for each requested
field name in order, pop it if its looked-up value is truthy, otherwise
log the "Unrecognized DICOM field" warning.  Returns the final dataset
and the warnings logged.  (The source guards the loop with
`if remove_dicom_fields:`; an empty list makes the loop a no-op either
way.) -/
def redactFold (ds : List (String × DicomValue)) :
    List String → List (String × DicomValue) × List LogMsg
  | [] => (ds, [])
  | name :: rest =>
    if getTruthy ds name then
      redactFold (popField name ds) rest
    else
      let r := redactFold ds rest
      (r.1, .warnMsg ("Unrecognized DICOM field named " ++ name) :: r.2)

/-- Little-endian 16-bit samples from a byte buffer (numpy `uint16` view
of the buffer, native byte order). -/
def pairsLE : List Nat → List Nat
  | b0 :: b1 :: rest => (b0 + 256 * b1) :: pairsLE rest
  | _ => []

/-- Reinterpret the pixel buffer as samples of the selected width:
`np.uint8` leaves bytes as samples, `np.uint16` combines byte pairs. -/
def bytesToSamples (bits : Nat) (bs : List Nat) : List Nat :=
  if bits == 16 then pairsLE bs else bs

/-- `np.ndarray((rows, columns), dtype, buffer)`: the first
`rows * columns` samples arranged as `rows` rows of `columns` samples,
row-major. -/
def toGrid : Nat → Nat → List Nat → List (List Nat)
  | 0, _, _ => []
  | r + 1, c, samples => samples.take c :: toGrid r c (samples.drop c)

/-- Row-major flattening of a grid. -/
def gridJoin : List (List Nat) → List Nat
  | [] => []
  | row :: rest => row ++ gridJoin rest

/-- The JSON document written for one file:
`{meta: file_meta.to_json_dict(), data: dataset.to_json_dict()}`
(`JsonConstants.META`/`DATA` are "meta"/"data" per the spec). -/
def metadataJson (meta ds : List (String × DicomValue)) : Json :=
  .jobj [("meta", .jobj (encodeFields meta)), ("data", .jobj (encodeFields ds))]

/-- The observable outcome of `convert_dicom_to_data` on one file:
logged messages, the metadata JSON write (always performed), the
optional image write (path and pixel grid; PNG encoding by
`cv2.imwrite` is abstracted to the grid itself), the manifest entry
appended to `converted_data` (none when the call raises), and the
propagated exception if any. -/
structure ConvertResult where
  logs : List LogMsg
  metadataWrite : String × Json
  imageWrite : Option (String × List (List Nat))
  entry : Option DicomConvertedData
  fatal : Option String

/-- `convert_dicom_to_data`, translated line by line from the source.
The pixel-relevant values were read by `dicom_dataset.get` before
redaction, so redaction never affects the image decision.  The branch
condition is the source's `if rows and columns and pixel_data and
bits_stored:` (Python truthiness).  The bit-depth dispatch selects
`np.uint8` for 8, `np.uint16` for 16, and raises `ValueError` otherwise;
the buffer-size check runs after it and, on mismatch, logs an error and
records a metadata-only entry. -/
def convert_dicom_to_data (f : DicomFile) (remove_dicom_fields : List String) :
    ConvertResult :=
  let output_dataset_filepath := jsonPathOf f.stem
  let output_image_filepath := pngPathOf f.stem
  let redacted := redactFold f.data remove_dicom_fields
  let mdWrite := (output_dataset_filepath, metadataJson f.meta redacted.1)
  if truthyNat f.rows && truthyNat f.columns &&
      truthyBytes f.pixelData && truthyNat f.bitsStored then
    let rows := f.rows.getD 0
    let columns := f.columns.getD 0
    let bits_stored := f.bitsStored.getD 0
    let pixel_data := f.pixelData.getD []
    if bits_stored == 8 || bits_stored == 16 then
      let pixel_data_expected_length := rows * columns * (bits_stored / 8)
      if pixel_data.length != pixel_data_expected_length then
        { logs := redacted.2 ++ [.errMsg (f.name ++ " buffer size is not consistent")],
          metadataWrite := mdWrite,
          imageWrite := none,
          entry := some ⟨none, f.name, output_dataset_filepath⟩,
          fatal := none }
      else
        { logs := redacted.2,
          metadataWrite := mdWrite,
          imageWrite := some (output_image_filepath,
            toGrid rows columns (bytesToSamples bits_stored pixel_data)),
          entry := some ⟨some output_image_filepath, f.name, output_dataset_filepath⟩,
          fatal := none }
    else
      { logs := redacted.2,
        metadataWrite := mdWrite,
        imageWrite := none,
        entry := none,
        fatal := some ("Unrecognized DICOM BitsStored value " ++
          toString (f.bitsStored.getD 0)) }
  else
    { logs := redacted.2 ++
        [.warnMsg (f.name ++ " has no Rows or Columns or BitsStored or PixelData DICOM fields")],
      metadataWrite := mdWrite,
      imageWrite := none,
      entry := some ⟨none, f.name, output_dataset_filepath⟩,
      fatal := none }

/-- Accumulated observable state of the per-file loop of `dicom2json`:
logs, metadata and image writes, the `converted_data` list, and the
first propagated exception (which stops the loop). -/
structure RunResult where
  logs : List LogMsg
  metaWrites : List (String × Json)
  imageWrites : List (String × List (List Nat))
  converted_data : List DicomConvertedData
  fatal : Option String

/-- The per-file loop of `dicom2json`: files are processed strictly in
order; a raised exception propagates and stops the loop, keeping the
writes already performed (including the raising file's metadata write)
but appending no entry for the raising file. -/
def processFiles (remove_dicom_fields : List String) : List DicomFile → RunResult
  | [] => { logs := [], metaWrites := [], imageWrites := [],
            converted_data := [], fatal := none }
  | f :: rest =>
    let r := convert_dicom_to_data f remove_dicom_fields
    match r.fatal with
    | some e =>
      { logs := .debugMsg ("Convert " ++ f.name) :: r.logs,
        metaWrites := [r.metadataWrite],
        imageWrites := r.imageWrite.toList,
        converted_data := [],
        fatal := some e }
    | none =>
      let k := processFiles remove_dicom_fields rest
      { logs := .debugMsg ("Convert " ++ f.name) :: r.logs ++ k.logs,
        metaWrites := r.metadataWrite :: k.metaWrites,
        imageWrites := r.imageWrite.toList ++ k.imageWrites,
        converted_data := r.entry.toList ++ k.converted_data,
        fatal := k.fatal }

/-- One manifest entry serialized to JSON:
`{template: ..., image: ...|null, output: ...}`
(`JsonConstants.TEMPLATE`/`IMAGE`/`OUTPUT` per the spec). -/
def entryToJson (d : DicomConvertedData) : Json :=
  .jobj [("template", .jstr d.template),
         ("image", match d.image with | some s => .jstr s | none => .jnull),
         ("output", .jstr d.output)]

/-- The result of a whole `dicom2json` run: the per-file loop state and
the manifest write, absent when an exception aborted the run before the
manifest was written. -/
structure Dicom2JsonResult where
  run : RunResult
  manifestWrite : Option (String × Json)

/-- `dicom2json`: run the per-file loop, then write the manifest (an
ordered JSON array with one entry per `converted_data` item).  An
exception propagating out of the loop skips the manifest write. -/
def dicom2json (input_files : List DicomFile) (remove_dicom_fields : List String) :
    Dicom2JsonResult :=
  let r := processFiles remove_dicom_fields input_files
  match r.fatal with
  | some _ => { run := r, manifestWrite := none }
  | none =>
    { run := r,
      manifestWrite := some (manifestPath, .jarr (r.converted_data.map entryToJson)) }

/-! ### Lemmas about the pixel decoding -/

theorem pairsLE_length (bs : List Nat) : (pairsLE bs).length = bs.length / 2 := by
  induction bs using pairsLE.induct with
  | case1 b0 b1 rest ih => simp [pairsLE, ih]; omega
  | case2 t hne =>
    match t, hne with
    | [], _ => simp [pairsLE]
    | [b], _ => simp [pairsLE]
    | b0 :: b1 :: rest, hne => exact absurd rfl (hne b0 b1 rest)

theorem pairsLE_bound (bs : List Nat) (hb : ∀ b ∈ bs, b < 256) :
    ∀ x ∈ pairsLE bs, x < 65536 := by
  induction bs using pairsLE.induct with
  | case1 b0 b1 rest ih =>
    intro x hx
    simp only [pairsLE, List.mem_cons] at hx
    rcases hx with hx | hx
    · have h0 : b0 < 256 := hb b0 (by simp)
      have h1 : b1 < 256 := hb b1 (by simp)
      omega
    · exact ih (fun b hmem => hb b (by simp [hmem])) x hx
  | case2 t hne =>
    match t, hne with
    | [], _ => intro x hx; simp [pairsLE] at hx
    | [b], _ => intro x hx; simp [pairsLE] at hx
    | b0 :: b1 :: rest, hne => exact absurd rfl (hne b0 b1 rest)

theorem bytesToSamples_length_8 (bs : List Nat) :
    (bytesToSamples 8 bs).length = bs.length := by
  simp [bytesToSamples]

theorem bytesToSamples_length_16 (bs : List Nat) :
    (bytesToSamples 16 bs).length = bs.length / 2 := by
  simp [bytesToSamples, pairsLE_length]

theorem bytesToSamples_bound (b : Nat) (hb : b = 8 ∨ b = 16) (bs : List Nat)
    (hbytes : ∀ x ∈ bs, x < 256) : ∀ s ∈ bytesToSamples b bs, s < 2 ^ b := by
  rcases hb with hb | hb <;> subst hb
  · intro s hs
    simp only [bytesToSamples, show ((8 == 16) = false) by rfl, Bool.false_eq_true,
      if_false] at hs
    exact lt_of_lt_of_le (hbytes s hs) (by norm_num)
  · intro s hs
    simp only [bytesToSamples, show ((16 == 16) = true) by rfl, if_true] at hs
    exact lt_of_lt_of_le (pairsLE_bound bs hbytes s hs) (by norm_num)

theorem toGrid_length (r c : Nat) (samples : List Nat) :
    (toGrid r c samples).length = r := by
  induction r generalizing samples with
  | zero => rfl
  | succ r ih => simp [toGrid, ih]

theorem toGrid_row_length (r c : Nat) (samples : List Nat)
    (h : samples.length = r * c) : ∀ row ∈ toGrid r c samples, row.length = c := by
  induction r generalizing samples with
  | zero => intro row hrow; simp [toGrid] at hrow
  | succ r ih =>
    intro row hrow
    simp only [toGrid, List.mem_cons] at hrow
    rcases hrow with hrow | hrow
    · subst hrow
      rw [List.length_take, h]
      have : c ≤ (r + 1) * c := by
        calc c = 1 * c := (one_mul c).symm
        _ ≤ (r + 1) * c := Nat.mul_le_mul_right c (by omega)
      omega
    · refine ih (samples.drop c) ?_ row hrow
      rw [List.length_drop, h]
      calc (r + 1) * c - c = r * c + c - c := by ring_nf
      _ = r * c := by omega

theorem toGrid_join (r c : Nat) (samples : List Nat)
    (h : samples.length = r * c) : gridJoin (toGrid r c samples) = samples := by
  induction r generalizing samples with
  | zero =>
    simp only [Nat.zero_mul] at h
    simp [toGrid, gridJoin, List.eq_nil_of_length_eq_zero h]
  | succ r ih =>
    simp only [toGrid, gridJoin]
    rw [ih (samples.drop c) (by rw [List.length_drop, h]; ring_nf; omega)]
    exact List.take_append_drop c samples

theorem toGrid_mem (r c : Nat) (samples : List Nat) :
    ∀ row ∈ toGrid r c samples, ∀ x ∈ row, x ∈ samples := by
  induction r generalizing samples with
  | zero => intro row hrow; simp [toGrid] at hrow
  | succ r ih =>
    intro row hrow x hx
    simp only [toGrid, List.mem_cons] at hrow
    rcases hrow with hrow | hrow
    · exact List.mem_of_mem_take (hrow ▸ hx)
    · exact List.mem_of_mem_drop (ih (samples.drop c) row hrow x hx)

/-! ### Branch lemmas for `convert_dicom_to_data` -/

theorem convert_eq_image (f : DicomFile) (fields : List String)
    (r c b : Nat) (pd : List Nat)
    (hr : f.rows = some r) (hr1 : 1 ≤ r)
    (hc : f.columns = some c) (hc1 : 1 ≤ c)
    (hb : f.bitsStored = some b) (hb816 : b = 8 ∨ b = 16)
    (hpd : f.pixelData = some pd)
    (hlen : pd.length = r * c * (b / 8)) :
    convert_dicom_to_data f fields =
      { logs := (redactFold f.data fields).2,
        metadataWrite := (jsonPathOf f.stem, metadataJson f.meta (redactFold f.data fields).1),
        imageWrite := some (pngPathOf f.stem, toGrid r c (bytesToSamples b pd)),
        entry := some ⟨some (pngPathOf f.stem), f.name, jsonPathOf f.stem⟩,
        fatal := none } := by
  have hr0 : (r != 0) = true := by simp; omega
  have hc0 : (c != 0) = true := by simp; omega
  have hb0 : (b != 0) = true := by rcases hb816 with h | h <;> subst h <;> decide
  have hpdne : pd ≠ [] := by
    intro hnil
    subst hnil
    rcases hb816 with h | h <;> subst h <;> simp at hlen <;> omega
  have hpde : pd.isEmpty = false := by simp [List.isEmpty_eq_false, hpdne]
  have hbits : (b == 8 || b == 16) = true := by
    rcases hb816 with h | h <;> subst h <;> decide
  unfold convert_dicom_to_data
  rw [hr, hc, hb, hpd]
  simp only [truthyNat, truthyBytes, hr0, hc0, hb0, hpde, Bool.not_false,
    Bool.and_self, Bool.and_true, Bool.true_and, if_true, Option.getD_some, hbits,
    hlen, bne_self_eq_false, Bool.false_eq_true, if_false]

theorem convert_eq_mismatch (f : DicomFile) (fields : List String)
    (r c b : Nat) (pd : List Nat)
    (hr : f.rows = some r) (hr1 : 1 ≤ r)
    (hc : f.columns = some c) (hc1 : 1 ≤ c)
    (hb : f.bitsStored = some b) (hb816 : b = 8 ∨ b = 16)
    (hpd : f.pixelData = some pd) (hpdne : pd ≠ [])
    (hlen : pd.length ≠ r * c * (b / 8)) :
    convert_dicom_to_data f fields =
      { logs := (redactFold f.data fields).2 ++
          [.errMsg (f.name ++ " buffer size is not consistent")],
        metadataWrite := (jsonPathOf f.stem, metadataJson f.meta (redactFold f.data fields).1),
        imageWrite := none,
        entry := some ⟨none, f.name, jsonPathOf f.stem⟩,
        fatal := none } := by
  have hr0 : (r != 0) = true := by simp; omega
  have hc0 : (c != 0) = true := by simp; omega
  have hb0 : (b != 0) = true := by rcases hb816 with h | h <;> subst h <;> decide
  have hpde : pd.isEmpty = false := by simp [List.isEmpty_eq_false, hpdne]
  have hbits : (b == 8 || b == 16) = true := by
    rcases hb816 with h | h <;> subst h <;> decide
  have hne : (pd.length != r * c * (b / 8)) = true := by simp [hlen]
  unfold convert_dicom_to_data
  rw [hr, hc, hb, hpd]
  simp only [truthyNat, truthyBytes, hr0, hc0, hb0, hpde, Bool.not_false,
    Bool.and_self, Bool.and_true, Bool.true_and, if_true, Option.getD_some, hbits,
    hne]

theorem convert_eq_fatal (f : DicomFile) (fields : List String)
    (r c b : Nat) (pd : List Nat)
    (hr : f.rows = some r) (hr1 : 1 ≤ r)
    (hc : f.columns = some c) (hc1 : 1 ≤ c)
    (hb : f.bitsStored = some b) (hb8 : b ≠ 8) (hb16 : b ≠ 16) (hb0 : b ≠ 0)
    (hpd : f.pixelData = some pd) (hpdne : pd ≠ []) :
    convert_dicom_to_data f fields =
      { logs := (redactFold f.data fields).2,
        metadataWrite := (jsonPathOf f.stem, metadataJson f.meta (redactFold f.data fields).1),
        imageWrite := none,
        entry := none,
        fatal := some ("Unrecognized DICOM BitsStored value " ++ toString b) } := by
  have hr0 : (r != 0) = true := by simp; omega
  have hc0 : (c != 0) = true := by simp; omega
  have hb0e : (b != 0) = true := by simp [hb0]
  have hpde : pd.isEmpty = false := by simp [List.isEmpty_eq_false, hpdne]
  have hbits : (b == 8 || b == 16) = false := by simp [hb8, hb16]
  unfold convert_dicom_to_data
  rw [hr, hc, hb, hpd]
  simp only [truthyNat, truthyBytes, hr0, hc0, hb0e, hpde, Bool.not_false,
    Bool.and_self, Bool.and_true, Bool.true_and, if_true, Option.getD_some, hbits,
    Bool.false_eq_true, if_false]

theorem convert_eq_missing (f : DicomFile) (fields : List String)
    (h : (truthyNat f.rows && truthyNat f.columns &&
      truthyBytes f.pixelData && truthyNat f.bitsStored) = false) :
    convert_dicom_to_data f fields =
      { logs := (redactFold f.data fields).2 ++
          [.warnMsg (f.name ++ " has no Rows or Columns or BitsStored or PixelData DICOM fields")],
        metadataWrite := (jsonPathOf f.stem, metadataJson f.meta (redactFold f.data fields).1),
        imageWrite := none,
        entry := some ⟨none, f.name, jsonPathOf f.stem⟩,
        fatal := none } := by
  unfold convert_dicom_to_data
  simp only [h, Bool.false_eq_true, if_false]

/-! ### Lemmas about redaction -/

theorem lookup_eq_none_of_not_mem_keys (k : String) (ds : List (String × DicomValue))
    (h : k ∉ ds.map Prod.fst) : List.lookup k ds = none := by
  induction ds with
  | nil => rfl
  | cons kv rest ih =>
    simp only [List.map_cons, List.mem_cons] at h
    push_neg at h
    simp only [List.lookup]
    rw [show (k == kv.1) = false by simp [h.1]]
    exact ih h.2

theorem lookup_popField_other (g k : String) (ds : List (String × DicomValue))
    (h : g ≠ k) : List.lookup g (popField k ds) = List.lookup g ds := by
  induction ds with
  | nil => rfl
  | cons kv rest ih =>
    by_cases hk : kv.1 = k
    · simp only [popField, hk, if_true, List.lookup]
      rw [show (g == k) = false by simp [h]]
    · simp only [popField, hk, if_false, List.lookup]
      cases hbeq : (g == kv.1) with
      | true => rfl
      | false => exact ih

theorem lookup_popField_none (g k : String) (ds : List (String × DicomValue))
    (h : List.lookup g ds = none) : List.lookup g (popField k ds) = none := by
  induction ds with
  | nil => rfl
  | cons kv rest ih =>
    simp only [List.lookup] at h
    cases hbeq : (g == kv.1) with
    | true =>
      rw [hbeq] at h
      exact absurd h (by simp)
    | false =>
      rw [hbeq] at h
      simp only at h
      by_cases hk : kv.1 = k
      · simp only [popField, hk, if_true]
        exact h
      · simp only [popField, hk, if_false, List.lookup, hbeq]
        exact ih h

theorem popField_sublist (k : String) (ds : List (String × DicomValue)) :
    List.Sublist (popField k ds) ds := by
  induction ds with
  | nil => simp [popField]
  | cons kv rest ih =>
    by_cases hk : kv.1 = k
    · simp only [popField, hk, if_true]
      exact List.sublist_cons_self kv rest
    · simp only [popField, hk, if_false]
      exact List.Sublist.cons₂ kv ih

theorem nodup_keys_popField (k : String) (ds : List (String × DicomValue))
    (h : (ds.map Prod.fst).Nodup) : ((popField k ds).map Prod.fst).Nodup :=
  List.Nodup.sublist (List.Sublist.map Prod.fst (popField_sublist k ds)) h

theorem lookup_popField_self (k : String) (ds : List (String × DicomValue))
    (h : (ds.map Prod.fst).Nodup) : List.lookup k (popField k ds) = none := by
  induction ds with
  | nil => rfl
  | cons kv rest ih =>
    simp only [List.map_cons, List.nodup_cons] at h
    by_cases hk : kv.1 = k
    · simp only [popField, hk, if_true]
      exact lookup_eq_none_of_not_mem_keys k rest (hk ▸ h.1)
    · simp only [popField, hk, if_false, List.lookup]
      rw [show (k == kv.1) = false by simp; exact fun he => hk he.symm]
      exact ih h.2

theorem redactFold_lookup_not_mem (g : String) (ds : List (String × DicomValue))
    (fields : List String) (h : g ∉ fields) :
    List.lookup g (redactFold ds fields).1 = List.lookup g ds := by
  induction fields generalizing ds with
  | nil => rfl
  | cons name rest ih =>
    simp only [List.mem_cons] at h
    push_neg at h
    by_cases ht : getTruthy ds name
    · simp only [redactFold, ht, if_true]
      rw [ih (popField name ds) h.2]
      exact lookup_popField_other g name ds h.1
    · simp only [redactFold, ht, Bool.false_eq_true, if_false]
      exact ih ds h.2

theorem redactFold_preserves_none (g : String) (ds : List (String × DicomValue))
    (fields : List String) (h : List.lookup g ds = none) :
    List.lookup g (redactFold ds fields).1 = none := by
  induction fields generalizing ds with
  | nil => exact h
  | cons name rest ih =>
    by_cases ht : getTruthy ds name
    · simp only [redactFold, ht, if_true]
      exact ih (popField name ds) (lookup_popField_none g name ds h)
    · simp only [redactFold, ht, Bool.false_eq_true, if_false]
      exact ih ds h

theorem redactFold_removes (F : String) (v : DicomValue)
    (ds : List (String × DicomValue)) (fields : List String)
    (hnd : (ds.map Prod.fst).Nodup) (hmem : F ∈ fields)
    (hlk : List.lookup F ds = some v) (htr : truthyV v = true) :
    List.lookup F (redactFold ds fields).1 = none := by
  induction fields generalizing ds v with
  | nil => simp at hmem
  | cons name rest ih =>
    by_cases hname : name = F
    · subst hname
      have ht : getTruthy ds name = true := by simp [getTruthy, hlk, htr]
      simp only [redactFold, ht, if_true]
      exact redactFold_preserves_none name (popField name ds) rest
        (lookup_popField_self name ds hnd)
    · have hmem2 : F ∈ rest := by
        rcases List.mem_cons.mp hmem with h | h
        · exact absurd h.symm hname
        · exact h
      by_cases ht : getTruthy ds name
      · simp only [redactFold, ht, if_true]
        refine ih v (popField name ds) (nodup_keys_popField name ds hnd) hmem2 ?_ htr
        rw [lookup_popField_other F name ds (fun he => hname he.symm)]
        exact hlk
      · simp only [redactFold, ht, Bool.false_eq_true, if_false]
        exact ih v ds hnd hmem2 hlk htr

theorem redactFold_warnings (ds : List (String × DicomValue)) (fields : List String) :
    ∀ m ∈ (redactFold ds fields).2, isWarning m = true := by
  induction fields generalizing ds with
  | nil => intro m hm; simp [redactFold] at hm
  | cons name rest ih =>
    intro m hm
    by_cases ht : getTruthy ds name
    · simp only [redactFold, ht, if_true] at hm
      exact ih (popField name ds) m hm
    · simp only [redactFold, ht, Bool.false_eq_true, if_false, List.mem_cons] at hm
      rcases hm with hm | hm
      · subst hm; rfl
      · exact ih ds m hm

theorem redactFold_filter_absent (F : String) (ds : List (String × DicomValue))
    (fields : List String) (h : List.lookup F ds = none) :
    (redactFold ds (fields.filter (fun g => !(g == F)))).1 = (redactFold ds fields).1 := by
  induction fields generalizing ds with
  | nil => rfl
  | cons name rest ih =>
    by_cases hname : name = F
    · subst hname
      have ht : getTruthy ds name = false := by simp [getTruthy, h]
      simp only [List.filter_cons, beq_self_eq_true, Bool.not_true, Bool.false_eq_true,
        if_false, redactFold, ht]
      exact ih ds h
    · have hkeep : (!(name == F)) = true := by simp [hname]
      simp only [List.filter_cons, hkeep, if_true]
      by_cases ht : getTruthy ds name
      · simp only [redactFold, ht, if_true]
        refine ih (popField name ds) ?_
        rw [lookup_popField_other F name ds (fun he => hname he.symm)]
        exact h
      · simp only [redactFold, ht, Bool.false_eq_true, if_false]
        exact ih ds h

theorem lookup_encodeFields (k : String) (m : List (String × DicomValue)) :
    List.lookup k (encodeFields m) = (List.lookup k m).map encodeValue := by
  induction m with
  | nil => rfl
  | cons kv rest ih =>
    simp only [encodeFields, List.map_cons, List.lookup]
    rcases hbeq : (k == kv.1) with _ | _
    · simpa [encodeFields] using ih
    · rfl

/-! ### Lemmas about JSON serialization round-trip -/

theorem hexVal_hexDigit : ∀ n, n < 16 → hexVal (hexDigit n) = some n := by
  decide

theorem decode_encodeHexBytes (bs : List Nat) (h : ∀ b ∈ bs, b < 256) :
    decodeHexBytes (encodeHexBytes bs) = some bs := by
  induction bs with
  | nil => rfl
  | cons b rest ih =>
    have hb : b < 256 := h b (by simp)
    have hdiv : b / 16 < 16 := (Nat.div_lt_iff_lt_mul (by norm_num)).mpr (by omega)
    have hmod : b % 16 < 16 := Nat.mod_lt b (by norm_num)
    simp only [encodeHexBytes, decodeHexBytes, hexVal_hexDigit _ hdiv,
      hexVal_hexDigit _ hmod, ih (fun x hx => h x (by simp [hx])),
      Nat.div_add_mod]
    rfl

theorem decode_encodeValue (v : DicomValue) (h : wellformedValue v = true) :
    decodeValue (encodeValue v) = some v := by
  cases v with
  | intV n => rfl
  | decV m e => rfl
  | strV s => rfl
  | bytesV bs =>
    simp only [wellformedValue, List.all_eq_true, decide_eq_true_eq] at h
    simp only [encodeValue, decodeValue]
    rw [decode_encodeHexBytes bs h]
    rfl

theorem decode_encodeFields (m : List (String × DicomValue))
    (h : wellformedMapping m = true) : decodeFields (encodeFields m) = some m := by
  induction m with
  | nil => rfl
  | cons kv rest ih =>
    simp only [wellformedMapping, List.all_eq_true] at h ih
    have hrest := ih (fun x hx => h x (by simp [hx]))
    simp only [encodeFields, List.map_cons] at hrest ⊢
    simp only [decodeFields, decode_encodeValue kv.2 (h kv (by simp)), hrest]

/-! ### Cross-branch lemmas for `convert_dicom_to_data` -/

theorem convert_metadataWrite (f : DicomFile) (fields : List String) :
    (convert_dicom_to_data f fields).metadataWrite =
      (jsonPathOf f.stem, metadataJson f.meta (redactFold f.data fields).1) := by
  simp only [convert_dicom_to_data]
  by_cases h1 : (truthyNat f.rows && truthyNat f.columns &&
      truthyBytes f.pixelData && truthyNat f.bitsStored) = true
  · simp only [if_pos h1]
    by_cases h2 : ((f.bitsStored.getD 0 == 8) || (f.bitsStored.getD 0 == 16)) = true
    · simp only [if_pos h2]
      by_cases h3 : ((f.pixelData.getD []).length !=
          f.rows.getD 0 * f.columns.getD 0 * (f.bitsStored.getD 0 / 8)) = true
      · simp only [if_pos h3]
      · simp only [if_neg h3]
    · simp only [if_neg h2]
  · simp only [if_neg h1]

theorem convert_indep (f : DicomFile) (fs1 fs2 : List String) :
    (convert_dicom_to_data f fs1).imageWrite = (convert_dicom_to_data f fs2).imageWrite ∧
    (convert_dicom_to_data f fs1).entry = (convert_dicom_to_data f fs2).entry ∧
    (convert_dicom_to_data f fs1).fatal = (convert_dicom_to_data f fs2).fatal := by
  simp only [convert_dicom_to_data]
  by_cases h1 : (truthyNat f.rows && truthyNat f.columns &&
      truthyBytes f.pixelData && truthyNat f.bitsStored) = true
  · simp only [if_pos h1]
    by_cases h2 : ((f.bitsStored.getD 0 == 8) || (f.bitsStored.getD 0 == 16)) = true
    · simp only [if_pos h2]
      by_cases h3 : ((f.pixelData.getD []).length !=
          f.rows.getD 0 * f.columns.getD 0 * (f.bitsStored.getD 0 / 8)) = true
      · simp only [if_pos h3]
        refine ⟨?_, ?_, ?_⟩ <;> trivial
      · simp only [if_neg h3]
        refine ⟨?_, ?_, ?_⟩ <;> trivial
    · simp only [if_neg h2]
      refine ⟨?_, ?_, ?_⟩ <;> trivial
  · simp only [if_neg h1]
    refine ⟨?_, ?_, ?_⟩ <;> trivial

theorem convert_logs_shape (f : DicomFile) :
    ∃ extra : List LogMsg, ∀ fields : List String,
      (convert_dicom_to_data f fields).logs = (redactFold f.data fields).2 ++ extra := by
  simp only [convert_dicom_to_data]
  by_cases h1 : (truthyNat f.rows && truthyNat f.columns &&
      truthyBytes f.pixelData && truthyNat f.bitsStored) = true
  · by_cases h2 : ((f.bitsStored.getD 0 == 8) || (f.bitsStored.getD 0 == 16)) = true
    · by_cases h3 : ((f.pixelData.getD []).length !=
          f.rows.getD 0 * f.columns.getD 0 * (f.bitsStored.getD 0 / 8)) = true
      · exact ⟨[.errMsg (f.name ++ " buffer size is not consistent")],
          fun fields => by simp only [if_pos h1, if_pos h2, if_pos h3]⟩
      · exact ⟨[], fun fields => by
          simp only [if_pos h1, if_pos h2, if_neg h3, List.append_nil]⟩
    · exact ⟨[], fun fields => by
        simp only [if_pos h1, if_neg h2, List.append_nil]⟩
  · exact ⟨[.warnMsg (f.name ++ " has no Rows or Columns or BitsStored or PixelData DICOM fields")],
      fun fields => by simp only [if_neg h1]⟩

theorem isError_of_isWarning (m : LogMsg) (h : isWarning m = true) : isError m = false := by
  cases m with
  | debugMsg s => rfl
  | warnMsg s => rfl
  | errMsg s => simp [isWarning] at h

theorem redactFold_filter_warnings (ds : List (String × DicomValue)) (fields : List String) :
    ((redactFold ds fields).2).filter (fun m => !(isWarning m)) = [] := by
  rw [List.filter_eq_nil_iff]
  intro m hm
  simp [redactFold_warnings ds fields m hm]

/-! ### Lemmas about the orchestrator -/

theorem processFiles_fatal_of_mem (fields : List String) (files : List DicomFile)
    (f : DicomFile) (hf : f ∈ files)
    (hfat : (convert_dicom_to_data f fields).fatal.isSome = true) :
    (processFiles fields files).fatal.isSome = true := by
  induction files with
  | nil => simp at hf
  | cons g rest ih =>
    rcases List.mem_cons.mp hf with h | h
    · cases hg : (convert_dicom_to_data g fields).fatal with
      | none =>
        rw [h, hg] at hfat
        simp at hfat
      | some e => simp [processFiles, hg]
    · cases hg : (convert_dicom_to_data g fields).fatal with
      | some e => simp [processFiles, hg]
      | none =>
        simp only [processFiles, hg]
        exact ih h

theorem dicom2json_run_eq (files : List DicomFile) (fields : List String) :
    (dicom2json files fields).run = processFiles fields files := by
  unfold dicom2json
  cases hf : (processFiles fields files).fatal <;> simp [hf]

theorem dicom2json_manifest_none_of_fatal (files : List DicomFile) (fields : List String)
    (h : (processFiles fields files).fatal.isSome = true) :
    (dicom2json files fields).manifestWrite = none := by
  unfold dicom2json
  cases hf : (processFiles fields files).fatal with
  | none => rw [hf] at h; simp at h
  | some e => simp [hf]

theorem convert_entry_form (f : DicomFile) (fields : List String)
    (h : (convert_dicom_to_data f fields).fatal = none) :
    ∃ img, (convert_dicom_to_data f fields).entry =
      some ⟨img, f.name, jsonPathOf f.stem⟩ := by
  by_cases h1 : (truthyNat f.rows && truthyNat f.columns &&
      truthyBytes f.pixelData && truthyNat f.bitsStored) = true
  · by_cases h2 : ((f.bitsStored.getD 0 == 8) || (f.bitsStored.getD 0 == 16)) = true
    · by_cases h3 : ((f.pixelData.getD []).length !=
          f.rows.getD 0 * f.columns.getD 0 * (f.bitsStored.getD 0 / 8)) = true
      · refine ⟨none, ?_⟩
        simp only [convert_dicom_to_data, if_pos h1, if_pos h2, if_pos h3]
      · refine ⟨some (pngPathOf f.stem), ?_⟩
        simp only [convert_dicom_to_data, if_pos h1, if_pos h2, if_neg h3]
    · exfalso
      simp only [convert_dicom_to_data, if_pos h1, if_neg h2] at h
      simp at h
  · refine ⟨none, ?_⟩
    simp only [convert_dicom_to_data, if_neg h1]

theorem processFiles_no_fatal (fields : List String) (files : List DicomFile)
    (h : ∀ f ∈ files, (convert_dicom_to_data f fields).fatal = none) :
    (processFiles fields files).fatal = none ∧
    (processFiles fields files).converted_data =
      files.map (fun f => ((convert_dicom_to_data f fields).entry).getD ⟨none, "", ""⟩) := by
  induction files with
  | nil => exact ⟨rfl, rfl⟩
  | cons g rest ih =>
    have hg := h g (by simp)
    have ih' := ih (fun x hx => h x (by simp [hx]))
    obtain ⟨img, hentry⟩ := convert_entry_form g fields hg
    simp only [processFiles, hg, List.map_cons]
    refine ⟨ih'.1, ?_⟩
    rw [hentry, ih'.2]
    rfl

theorem processFiles_abort (fields : List String) (pre : List DicomFile) (f : DicomFile)
    (post : List DicomFile)
    (hpre : ∀ g ∈ pre, (convert_dicom_to_data g fields).fatal = none)
    (e : String) (hf : (convert_dicom_to_data f fields).fatal = some e) :
    (processFiles fields (pre ++ f :: post)).fatal = some e ∧
    (convert_dicom_to_data f fields).metadataWrite ∈
      (processFiles fields (pre ++ f :: post)).metaWrites ∧
    (processFiles fields (pre ++ f :: post)).converted_data =
      (processFiles fields pre).converted_data := by
  induction pre with
  | nil =>
    simp only [List.nil_append, processFiles, hf]
    refine ⟨?_, by simp, ?_⟩ <;> trivial
  | cons g pre' ih =>
    have hg := hpre g (by simp)
    have ih' := ih (fun x hx => hpre x (by simp [hx]))
    simp only [List.cons_append, processFiles, hg]
    refine ⟨ih'.1, ?_, ?_⟩
    · exact List.mem_cons_of_mem _ ih'.2.1
    · exact congrArg (fun l => (convert_dicom_to_data g fields).entry.toList ++ l) ih'.2.2

/-! ### Claim theorems -/

/-- Claim C1 (amended: Rows and Columns must moreover be at least 1; with
Rows = 0 or Columns = 0 the buffer of exactly `R*C*(bits/8)` bytes is empty,
which Python truthiness routes to the missing-fields path): for every input
file whose record has Rows = R ≥ 1, Columns = C ≥ 1, BitsStored 8 or 16 and
a PixelData buffer of exactly `R*C*(BitsStored/8)` bytes, extraction
succeeds: the buffer is reinterpreted as an R-by-C grid of unsigned integers
of width BitsStored in row-major order (exactly `R*C` samples, each below
`2^BitsStored`), the grid is written at the sibling `.png` path, and the
file's manifest entry records that image path (non-null). -/
theorem C1_success_extraction (f : DicomFile) (fields : List String)
    (r c b : Nat) (pd : List Nat)
    (hr : f.rows = some r) (hr1 : 1 ≤ r)
    (hc : f.columns = some c) (hc1 : 1 ≤ c)
    (hb : f.bitsStored = some b) (hb816 : b = 8 ∨ b = 16)
    (hpd : f.pixelData = some pd)
    (hlen : pd.length = r * c * (b / 8))
    (hbytes : ∀ x ∈ pd, x < 256) :
    (convert_dicom_to_data f fields).fatal = none ∧
    (convert_dicom_to_data f fields).imageWrite =
      some (pngPathOf f.stem, toGrid r c (bytesToSamples b pd)) ∧
    (convert_dicom_to_data f fields).entry =
      some ⟨some (pngPathOf f.stem), f.name, jsonPathOf f.stem⟩ ∧
    (bytesToSamples b pd).length = r * c ∧
    (toGrid r c (bytesToSamples b pd)).length = r ∧
    (∀ row ∈ toGrid r c (bytesToSamples b pd), row.length = c) ∧
    (∀ row ∈ toGrid r c (bytesToSamples b pd), ∀ s ∈ row, s < 2 ^ b) ∧
    gridJoin (toGrid r c (bytesToSamples b pd)) = bytesToSamples b pd := by
  have hconv := convert_eq_image f fields r c b pd hr hr1 hc hc1 hb hb816 hpd hlen
  have hsam : (bytesToSamples b pd).length = r * c := by
    rcases hb816 with h | h <;> subst h
    · rw [bytesToSamples_length_8, hlen]
      omega
    · rw [bytesToSamples_length_16, hlen]
      omega
  exact ⟨by rw [hconv], by rw [hconv], by rw [hconv], hsam,
    toGrid_length r c _,
    toGrid_row_length r c _ hsam,
    fun row hrow s hs => bytesToSamples_bound b hb816 pd hbytes s
      (toGrid_mem r c _ row hrow s hs),
    toGrid_join r c _ hsam⟩

/-- Claim C1 witness: a 2-by-2, 8-bit file with buffer `[10,20,30,40]`
is extracted to the row-major grid `[[10,20],[30,40]]`, written at the
sibling `.png` path and recorded in the manifest entry. -/
theorem C1_success_extraction_witness :
    (convert_dicom_to_data
        ⟨"scan.dcm", "scan", [], [], some 2, some 2, some 8, some [10, 20, 30, 40]⟩
        []).imageWrite =
      some (pngPathOf "scan", toGrid 2 2 (bytesToSamples 8 [10, 20, 30, 40])) ∧
    (convert_dicom_to_data
        ⟨"scan.dcm", "scan", [], [], some 2, some 2, some 8, some [10, 20, 30, 40]⟩
        []).entry =
      some ⟨some (pngPathOf "scan"), "scan.dcm", jsonPathOf "scan"⟩ ∧
    toGrid 2 2 (bytesToSamples 8 [10, 20, 30, 40]) = [[10, 20], [30, 40]] :=
  ⟨(C1_success_extraction
      ⟨"scan.dcm", "scan", [], [], some 2, some 2, some 8, some [10, 20, 30, 40]⟩
      [] 2 2 8 [10, 20, 30, 40] rfl (by decide) rfl (by decide) rfl (Or.inl rfl)
      rfl (by decide) (by decide)).2.1,
   (C1_success_extraction
      ⟨"scan.dcm", "scan", [], [], some 2, some 2, some 8, some [10, 20, 30, 40]⟩
      [] 2 2 8 [10, 20, 30, 40] rfl (by decide) rfl (by decide) rfl (Or.inl rfl)
      rfl (by decide) (by decide)).2.2.1,
   by decide⟩

/-- Claim C1 counterexample: a record with Rows = 0, Columns = 1,
BitsStored = 8 and a PixelData buffer of exactly `0*1*(8/8) = 0` bytes
satisfies the claim's hypotheses as stated, yet extraction does not
succeed: the converter takes the missing-fields path (Python truthiness
of `Rows = 0` and of the empty buffer), writes no image and records a
null image in the manifest entry. -/
theorem C1_counterexample :
    (List.length ([] : List Nat)) = 0 * 1 * (8 / 8) ∧
    (convert_dicom_to_data
        ⟨"zero.dcm", "zero", [], [], some 0, some 1, some 8, some []⟩ []).imageWrite =
      none ∧
    (convert_dicom_to_data
        ⟨"zero.dcm", "zero", [], [], some 0, some 1, some 8, some []⟩ []).entry =
      some ⟨none, "zero.dcm", jsonPathOf "zero"⟩ :=
  ⟨rfl, rfl, rfl⟩

/-- Claim C2 (amended: BitsStored must moreover be 8 or 16; the
unconditional raise for other bit depths runs before the size check):
for every input file where the four pixel-relevant fields are present
(truthy) with BitsStored 8 or 16 and the buffer length differs from
`R*C*(BitsStored/8)`, the converter logs an error, still produces the
metadata JSON, records a manifest entry with a null image, and the run
continues to the next file. -/
theorem C2_mismatch_recoverable (f : DicomFile) (fields : List String)
    (r c b : Nat) (pd : List Nat)
    (hr : f.rows = some r) (hr1 : 1 ≤ r)
    (hc : f.columns = some c) (hc1 : 1 ≤ c)
    (hb : f.bitsStored = some b) (hb816 : b = 8 ∨ b = 16)
    (hpd : f.pixelData = some pd) (hpdne : pd ≠ [])
    (hlen : pd.length ≠ r * c * (b / 8)) :
    (convert_dicom_to_data f fields).fatal = none ∧
    LogMsg.errMsg (f.name ++ " buffer size is not consistent") ∈
      (convert_dicom_to_data f fields).logs ∧
    (convert_dicom_to_data f fields).metadataWrite =
      (jsonPathOf f.stem, metadataJson f.meta (redactFold f.data fields).1) ∧
    (convert_dicom_to_data f fields).imageWrite = none ∧
    (convert_dicom_to_data f fields).entry = some ⟨none, f.name, jsonPathOf f.stem⟩ ∧
    ∀ rest, (processFiles fields (f :: rest)).fatal = (processFiles fields rest).fatal := by
  have hconv := convert_eq_mismatch f fields r c b pd hr hr1 hc hc1 hb hb816 hpd hpdne hlen
  refine ⟨by rw [hconv], by rw [hconv]; simp, by rw [hconv], by rw [hconv],
    by rw [hconv], ?_⟩
  intro rest
  have hfat : (convert_dicom_to_data f fields).fatal = none := by rw [hconv]
  simp only [processFiles, hfat]

/-- Claim C2 witness: a 2-by-2, 8-bit file with a 3-byte buffer
(expected 4) gets the error log, a metadata write, and a null-image
manifest entry, and a following file is still processed. -/
theorem C2_mismatch_recoverable_witness :
    LogMsg.errMsg ("short.dcm" ++ " buffer size is not consistent") ∈
      (convert_dicom_to_data
        ⟨"short.dcm", "short", [], [], some 2, some 2, some 8, some [1, 2, 3]⟩ []).logs ∧
    (convert_dicom_to_data
        ⟨"short.dcm", "short", [], [], some 2, some 2, some 8, some [1, 2, 3]⟩ []).entry =
      some ⟨none, "short.dcm", jsonPathOf "short"⟩ :=
  ⟨(C2_mismatch_recoverable
      ⟨"short.dcm", "short", [], [], some 2, some 2, some 8, some [1, 2, 3]⟩
      [] 2 2 8 [1, 2, 3] rfl (by decide) rfl (by decide) rfl (Or.inl rfl) rfl
      (by decide) (by decide)).2.1,
   (C2_mismatch_recoverable
      ⟨"short.dcm", "short", [], [], some 2, some 2, some 8, some [1, 2, 3]⟩
      [] 2 2 8 [1, 2, 3] rfl (by decide) rfl (by decide) rfl (Or.inl rfl) rfl
      (by decide) (by decide)).2.2.2.2.1⟩

/-- Claim C2 counterexample: a file whose four pixel-relevant fields are
all present (truthy) and whose buffer length (100) differs from
`R*C*(BitsStored/8)`, but with BitsStored = 12: the converter raises
instead of logging-and-continuing — no manifest entry for the file, the
run aborts, and no manifest is written.  The claim as stated (without
restricting BitsStored to 8 or 16) is therefore false. -/
theorem C2_counterexample :
    (truthyNat (some 2) && truthyNat (some 2) &&
      truthyBytes (some (List.replicate 100 0)) && truthyNat (some 12)) = true ∧
    (List.replicate 100 (0 : Nat)).length ≠ 2 * 2 * (12 / 8) ∧
    (convert_dicom_to_data
        ⟨"odd.dcm", "odd", [], [], some 2, some 2, some 12, some (List.replicate 100 0)⟩
        []).entry = none ∧
    (convert_dicom_to_data
        ⟨"odd.dcm", "odd", [], [], some 2, some 2, some 12, some (List.replicate 100 0)⟩
        []).fatal =
      some ("Unrecognized DICOM BitsStored value " ++ toString 12) ∧
    (dicom2json
        [⟨"odd.dcm", "odd", [], [], some 2, some 2, some 12, some (List.replicate 100 0)⟩]
        []).manifestWrite = none :=
  ⟨by decide, by decide, rfl, rfl, rfl⟩

/-- Claim C3: for every input file whose four pixel-relevant fields are
present (truthy) and whose BitsStored is neither 8 nor 16, the converter
raises an unsupported-bit-depth error; the error propagates, the whole
batch run aborts, and the manifest file is not written for that run. -/
theorem C3_unsupported_bits_abort (files : List DicomFile) (fields : List String)
    (f : DicomFile) (hf : f ∈ files) (r c b : Nat) (pd : List Nat)
    (hr : f.rows = some r) (hr1 : 1 ≤ r)
    (hc : f.columns = some c) (hc1 : 1 ≤ c)
    (hb : f.bitsStored = some b) (hb8 : b ≠ 8) (hb16 : b ≠ 16) (hb0 : b ≠ 0)
    (hpd : f.pixelData = some pd) (hpdne : pd ≠ []) :
    (convert_dicom_to_data f fields).fatal =
      some ("Unrecognized DICOM BitsStored value " ++ toString b) ∧
    (dicom2json files fields).run.fatal.isSome = true ∧
    (dicom2json files fields).manifestWrite = none := by
  have hconv := convert_eq_fatal f fields r c b pd hr hr1 hc hc1 hb hb8 hb16 hb0 hpd hpdne
  have hfat : (convert_dicom_to_data f fields).fatal.isSome = true := by
    rw [hconv]
    rfl
  have hrun := processFiles_fatal_of_mem fields files f hf hfat
  refine ⟨by rw [hconv], ?_, dicom2json_manifest_none_of_fatal files fields hrun⟩
  rw [dicom2json_run_eq]
  exact hrun

/-- Claim C3 witness: a single-file run whose file has BitsStored = 12
(all four fields truthy) raises and leaves no manifest. -/
theorem C3_unsupported_bits_abort_witness :
    (convert_dicom_to_data
        ⟨"bad.dcm", "bad", [], [], some 1, some 1, some 12, some [5]⟩ []).fatal =
      some ("Unrecognized DICOM BitsStored value " ++ toString 12) ∧
    (dicom2json [⟨"bad.dcm", "bad", [], [], some 1, some 1, some 12, some [5]⟩]
        []).manifestWrite = none :=
  ⟨(C3_unsupported_bits_abort
      [⟨"bad.dcm", "bad", [], [], some 1, some 1, some 12, some [5]⟩] []
      ⟨"bad.dcm", "bad", [], [], some 1, some 1, some 12, some [5]⟩ (by simp)
      1 1 12 [5] rfl (by decide) rfl (by decide) rfl (by decide) (by decide)
      (by decide) rfl (by decide)).1,
   (C3_unsupported_bits_abort
      [⟨"bad.dcm", "bad", [], [], some 1, some 1, some 12, some [5]⟩] []
      ⟨"bad.dcm", "bad", [], [], some 1, some 1, some 12, some [5]⟩ (by simp)
      1 1 12 [5] rfl (by decide) rfl (by decide) rfl (by decide) (by decide)
      (by decide) rfl (by decide)).2.2⟩

/-- Shared helper: the conclusions of the missing-fields path, used by
the claims about absent and about falsy pixel-relevant fields. -/
theorem convert_missing_path (f : DicomFile) (fields : List String)
    (h : (truthyNat f.rows && truthyNat f.columns &&
      truthyBytes f.pixelData && truthyNat f.bitsStored) = false) :
    (convert_dicom_to_data f fields).metadataWrite =
      (jsonPathOf f.stem, metadataJson f.meta (redactFold f.data fields).1) ∧
    LogMsg.warnMsg (f.name ++ " has no Rows or Columns or BitsStored or PixelData DICOM fields") ∈
      (convert_dicom_to_data f fields).logs ∧
    (∀ m ∈ (convert_dicom_to_data f fields).logs, isError m = false) ∧
    (convert_dicom_to_data f fields).imageWrite = none ∧
    (convert_dicom_to_data f fields).entry = some ⟨none, f.name, jsonPathOf f.stem⟩ ∧
    (convert_dicom_to_data f fields).fatal = none := by
  have hconv := convert_eq_missing f fields h
  refine ⟨by rw [hconv], by rw [hconv]; simp, ?_, by rw [hconv], by rw [hconv],
    by rw [hconv]⟩
  intro m hm
  rw [hconv] at hm
  simp only [List.mem_append, List.mem_singleton] at hm
  rcases hm with hm | hm
  · exact isError_of_isWarning m (redactFold_warnings f.data fields m hm)
  · subst hm
    rfl

/-- Claim C4 (amended: the requested field must be present with a truthy
— non-zero, non-empty — value; a present field with a falsy value is
treated like an unrecognized name and kept): for every record and every
field F named in the redaction request that is present with a truthy
value, the serialized data mapping of the output metadata JSON contains
no key F, and every field not named in the request is serialized
unchanged. -/
theorem C4_redaction_removes (f : DicomFile) (fields : List String)
    (F : String) (v : DicomValue)
    (hnd : (f.data.map Prod.fst).Nodup) (hF : F ∈ fields)
    (hlk : List.lookup F f.data = some v) (htr : truthyV v = true) :
    (convert_dicom_to_data f fields).metadataWrite =
      (jsonPathOf f.stem, metadataJson f.meta (redactFold f.data fields).1) ∧
    List.lookup F (encodeFields (redactFold f.data fields).1) = none ∧
    ∀ g, g ∉ fields → List.lookup g (encodeFields (redactFold f.data fields).1) =
      (List.lookup g f.data).map encodeValue := by
  refine ⟨convert_metadataWrite f fields, ?_, ?_⟩
  · rw [lookup_encodeFields, redactFold_removes F v f.data fields hnd hF hlk htr]
    rfl
  · intro g hg
    rw [lookup_encodeFields, redactFold_lookup_not_mem g f.data fields hg]

/-- Claim C4 witness: redacting the truthy field "A" removes it from the
serialized data mapping while a non-requested field "B" is unchanged. -/
theorem C4_redaction_removes_witness :
    List.lookup "A" (encodeFields (redactFold
      [("A", DicomValue.strV "x"), ("B", DicomValue.intV 5)] ["A"]).1) = none ∧
    List.lookup "B" (encodeFields (redactFold
      [("A", DicomValue.strV "x"), ("B", DicomValue.intV 5)] ["A"]).1) =
      (List.lookup "B" [("A", DicomValue.strV "x"), ("B", DicomValue.intV 5)]).map
        encodeValue :=
  ⟨(C4_redaction_removes
      ⟨"r.dcm", "r", [], [("A", DicomValue.strV "x"), ("B", DicomValue.intV 5)],
        none, none, none, none⟩
      ["A"] "A" (DicomValue.strV "x") (by decide) (by decide) rfl (by decide)).2.1,
   (C4_redaction_removes
      ⟨"r.dcm", "r", [], [("A", DicomValue.strV "x"), ("B", DicomValue.intV 5)],
        none, none, none, none⟩
      ["A"] "A" (DicomValue.strV "x") (by decide) (by decide) rfl (by decide)).2.2
      "B" (by decide)⟩

/-- Claim C4 counterexample: the field "PatientID" is present in the
record (with the falsy empty-string value) and named in the redaction
request, yet the serialized output data mapping still contains its key:
the redaction loop tests the looked-up value for truthiness, so a
present-but-falsy field is not removed. -/
theorem C4_counterexample :
    List.lookup "PatientID" [("PatientID", DicomValue.strV "")] =
      some (DicomValue.strV "") ∧
    (convert_dicom_to_data
        ⟨"p.dcm", "p", [], [("PatientID", DicomValue.strV "")], none, none, none, none⟩
        ["PatientID"]).metadataWrite.2 =
      metadataJson [] [("PatientID", DicomValue.strV "")] ∧
    (List.lookup "PatientID" (encodeFields (redactFold
      [("PatientID", DicomValue.strV "")] ["PatientID"]).1)).isSome = true :=
  ⟨rfl, rfl, rfl⟩

/-- Claim C5: after a batch run that completes (no file raises), the
manifest is written as a JSON array with exactly one entry per processed
input file, in input order — entry i is the entry produced for file i —
each of the form template/image/output with the file's metadata path,
its optional image path and its source name. -/
theorem C5_manifest_in_order (files : List DicomFile) (fields : List String)
    (h : ∀ f ∈ files, (convert_dicom_to_data f fields).fatal = none) :
    (dicom2json files fields).manifestWrite =
      some (manifestPath,
        Json.jarr (((processFiles fields files).converted_data).map entryToJson)) ∧
    (processFiles fields files).converted_data =
      files.map (fun f => ((convert_dicom_to_data f fields).entry).getD ⟨none, "", ""⟩) ∧
    ∀ f ∈ files, ∃ img, (convert_dicom_to_data f fields).entry =
      some ⟨img, f.name, jsonPathOf f.stem⟩ := by
  have hpf := processFiles_no_fatal fields files h
  refine ⟨?_, hpf.2, fun f hf => convert_entry_form f fields (h f hf)⟩
  simp only [dicom2json, hpf.1]

/-- Claim C5 witness: a two-file run (one with an image, one without)
yields a manifest with the two entries in input order. -/
theorem C5_manifest_in_order_witness :
    (processFiles [] [⟨"a.dcm", "a", [], [], some 1, some 1, some 8, some [7]⟩,
        ⟨"b.dcm", "b", [], [], none, none, none, none⟩]).converted_data =
      [⟨"a.dcm", "a", [], [], some 1, some 1, some 8, some [7]⟩,
        ⟨"b.dcm", "b", [], [], none, none, none, none⟩].map
        (fun f => ((convert_dicom_to_data f []).entry).getD ⟨none, "", ""⟩) ∧
    (processFiles [] [⟨"a.dcm", "a", [], [], some 1, some 1, some 8, some [7]⟩,
        ⟨"b.dcm", "b", [], [], none, none, none, none⟩]).converted_data =
      [⟨some (pngPathOf "a"), "a.dcm", jsonPathOf "a"⟩,
       ⟨none, "b.dcm", jsonPathOf "b"⟩] :=
  ⟨(C5_manifest_in_order
      [⟨"a.dcm", "a", [], [], some 1, some 1, some 8, some [7]⟩,
        ⟨"b.dcm", "b", [], [], none, none, none, none⟩] []
      (by decide)).2.1,
   by decide⟩

/-- Claim C6: for every input file where at least one of the four
pixel-relevant values is not truthy (the code's notion of present), the
metadata JSON is still written, a warning is logged and no error is, no
image is produced, the manifest entry has a null image, and processing
continues (no exception). -/
theorem C6_missing_fields (f : DicomFile) (fields : List String)
    (h : (truthyNat f.rows && truthyNat f.columns &&
      truthyBytes f.pixelData && truthyNat f.bitsStored) = false) :
    (convert_dicom_to_data f fields).metadataWrite =
      (jsonPathOf f.stem, metadataJson f.meta (redactFold f.data fields).1) ∧
    LogMsg.warnMsg (f.name ++ " has no Rows or Columns or BitsStored or PixelData DICOM fields") ∈
      (convert_dicom_to_data f fields).logs ∧
    (∀ m ∈ (convert_dicom_to_data f fields).logs, isError m = false) ∧
    (convert_dicom_to_data f fields).imageWrite = none ∧
    (convert_dicom_to_data f fields).entry = some ⟨none, f.name, jsonPathOf f.stem⟩ ∧
    (convert_dicom_to_data f fields).fatal = none :=
  convert_missing_path f fields h

/-- Claim C6 witness: a file missing Rows entirely still gets its
metadata write, a warning and a null-image entry. -/
theorem C6_missing_fields_witness :
    LogMsg.warnMsg ("norows.dcm" ++ " has no Rows or Columns or BitsStored or PixelData DICOM fields") ∈
      (convert_dicom_to_data
        ⟨"norows.dcm", "norows", [], [], none, some 2, some 8, some [1, 2]⟩ []).logs ∧
    (convert_dicom_to_data
        ⟨"norows.dcm", "norows", [], [], none, some 2, some 8, some [1, 2]⟩ []).entry =
      some ⟨none, "norows.dcm", jsonPathOf "norows"⟩ :=
  ⟨(C6_missing_fields
      ⟨"norows.dcm", "norows", [], [], none, some 2, some 8, some [1, 2]⟩ []
      (by decide)).2.1,
   (C6_missing_fields
      ⟨"norows.dcm", "norows", [], [], none, some 2, some 8, some [1, 2]⟩ []
      (by decide)).2.2.2.2.1⟩

/-- Claim C7: for every record and every field identifier F in the
redaction request that is absent from the record, the conversion result
(metadata JSON write, image write, manifest entry, raised exception) is
identical to the result of the request with F removed; the two runs can
differ only in warning-level log messages. -/
theorem C7_absent_redaction (f : DicomFile) (fields : List String) (F : String)
    (hF : List.lookup F f.data = none) :
    (convert_dicom_to_data f fields).metadataWrite =
      (convert_dicom_to_data f (fields.filter (fun g => !(g == F)))).metadataWrite ∧
    (convert_dicom_to_data f fields).imageWrite =
      (convert_dicom_to_data f (fields.filter (fun g => !(g == F)))).imageWrite ∧
    (convert_dicom_to_data f fields).entry =
      (convert_dicom_to_data f (fields.filter (fun g => !(g == F)))).entry ∧
    (convert_dicom_to_data f fields).fatal =
      (convert_dicom_to_data f (fields.filter (fun g => !(g == F)))).fatal ∧
    ((convert_dicom_to_data f fields).logs).filter (fun m => !(isWarning m)) =
      ((convert_dicom_to_data f (fields.filter (fun g => !(g == F)))).logs).filter
        (fun m => !(isWarning m)) := by
  have hds := redactFold_filter_absent F f.data fields hF
  have hind := convert_indep f fields (fields.filter (fun g => !(g == F)))
  obtain ⟨extra, hlogs⟩ := convert_logs_shape f
  refine ⟨?_, hind.1, hind.2.1, hind.2.2, ?_⟩
  · rw [convert_metadataWrite f fields,
      convert_metadataWrite f (fields.filter (fun g => !(g == F))), hds]
  · rw [hlogs fields, hlogs (fields.filter (fun g => !(g == F))),
      List.filter_append, List.filter_append,
      redactFold_filter_warnings, redactFold_filter_warnings]

/-- Claim C7 witness: requesting redaction of "Zap", absent from the
record, leaves metadata, image, entry and exception identical to the
request without it. -/
theorem C7_absent_redaction_witness :
    (convert_dicom_to_data
        ⟨"w.dcm", "w", [], [("Keep", DicomValue.intV 3)], none, none, none, none⟩
        ["Zap"]).metadataWrite =
      (convert_dicom_to_data
        ⟨"w.dcm", "w", [], [("Keep", DicomValue.intV 3)], none, none, none, none⟩
        (["Zap"].filter (fun g => !(g == "Zap")))).metadataWrite ∧
    (convert_dicom_to_data
        ⟨"w.dcm", "w", [], [("Keep", DicomValue.intV 3)], none, none, none, none⟩
        ["Zap"]).entry =
      (convert_dicom_to_data
        ⟨"w.dcm", "w", [], [("Keep", DicomValue.intV 3)], none, none, none, none⟩
        (["Zap"].filter (fun g => !(g == "Zap")))).entry :=
  ⟨(C7_absent_redaction
      ⟨"w.dcm", "w", [], [("Keep", DicomValue.intV 3)], none, none, none, none⟩
      ["Zap"] "Zap" rfl).1,
   (C7_absent_redaction
      ⟨"w.dcm", "w", [], [("Keep", DicomValue.intV 3)], none, none, none, none⟩
      ["Zap"] "Zap" rfl).2.2.1⟩

/-- Claim C8: for every record with wellformed byte buffers, serializing
its meta and data mappings to JSON (the document `convert_dicom_to_data`
writes) and re-parsing yields the same field values for all primitive
field types — strings, integers and decimals directly, binary fields
after decoding their hex encoding. -/
theorem C8_json_roundtrip (f : DicomFile)
    (hm : wellformedMapping f.meta = true) (hd : wellformedMapping f.data = true) :
    (convert_dicom_to_data f []).metadataWrite.2 =
      Json.jobj [("meta", Json.jobj (encodeFields f.meta)),
                 ("data", Json.jobj (encodeFields f.data))] ∧
    decodeMapping (Json.jobj (encodeFields f.meta)) = some f.meta ∧
    decodeMapping (Json.jobj (encodeFields f.data)) = some f.data := by
  refine ⟨?_, decode_encodeFields f.meta hm, decode_encodeFields f.data hd⟩
  rw [convert_metadataWrite]
  rfl

/-- Claim C8 witness: a record with a string, an integer, a decimal and
a binary field round-trips exactly. -/
theorem C8_json_roundtrip_witness :
    decodeMapping (Json.jobj (encodeFields
      [("A", DicomValue.intV 5), ("B", DicomValue.strV "x"),
       ("C", DicomValue.decV 31 (-1)), ("D", DicomValue.bytesV [0, 255, 16])])) =
      some [("A", DicomValue.intV 5), ("B", DicomValue.strV "x"),
       ("C", DicomValue.decV 31 (-1)), ("D", DicomValue.bytesV [0, 255, 16])] :=
  (C8_json_roundtrip
    ⟨"rt.dcm", "rt", [("TransferSyntaxUID", DicomValue.strV "1.2")],
      [("A", DicomValue.intV 5), ("B", DicomValue.strV "x"),
       ("C", DicomValue.decV 31 (-1)), ("D", DicomValue.bytesV [0, 255, 16])],
      none, none, none, none⟩
    (by decide) (by decide)).2.2

/-- Claim C9: presence of the four pixel-relevant fields is decided by
truthiness of their values: a file where one of them is present but
falsy (Rows = 0, Columns = 0, BitsStored = 0 or a zero-length
PixelData) takes the missing-fields path — the missing-fields warning is
logged (and no error), only the metadata JSON is written, no image, and
the manifest entry has a null image. -/
theorem C9_truthiness_presence (f : DicomFile) (fields : List String)
    (h : f.rows = some 0 ∨ f.columns = some 0 ∨ f.bitsStored = some 0 ∨
      f.pixelData = some []) :
    (convert_dicom_to_data f fields).metadataWrite =
      (jsonPathOf f.stem, metadataJson f.meta (redactFold f.data fields).1) ∧
    LogMsg.warnMsg (f.name ++ " has no Rows or Columns or BitsStored or PixelData DICOM fields") ∈
      (convert_dicom_to_data f fields).logs ∧
    (∀ m ∈ (convert_dicom_to_data f fields).logs, isError m = false) ∧
    (convert_dicom_to_data f fields).imageWrite = none ∧
    (convert_dicom_to_data f fields).entry = some ⟨none, f.name, jsonPathOf f.stem⟩ ∧
    (convert_dicom_to_data f fields).fatal = none := by
  have hcond : (truthyNat f.rows && truthyNat f.columns &&
      truthyBytes f.pixelData && truthyNat f.bitsStored) = false := by
    rcases h with h | h | h | h <;> simp [h, truthyNat, truthyBytes]
  exact convert_missing_path f fields hcond

/-- Claim C9 witness: a file with Rows present but equal to 0 (all other
pixel fields truthy) takes the missing-fields path. -/
theorem C9_truthiness_presence_witness :
    (convert_dicom_to_data
        ⟨"z.dcm", "z", [], [], some 0, some 2, some 8, some [1, 2]⟩ []).imageWrite =
      none ∧
    (convert_dicom_to_data
        ⟨"z.dcm", "z", [], [], some 0, some 2, some 8, some [1, 2]⟩ []).entry =
      some ⟨none, "z.dcm", jsonPathOf "z"⟩ :=
  ⟨(C9_truthiness_presence
      ⟨"z.dcm", "z", [], [], some 0, some 2, some 8, some [1, 2]⟩ []
      (Or.inl rfl)).2.2.2.1,
   (C9_truthiness_presence
      ⟨"z.dcm", "z", [], [], some 0, some 2, some 8, some [1, 2]⟩ []
      (Or.inl rfl)).2.2.2.2.1⟩

/-- Claim C10: the per-file step is not atomic on a fatal error: when the
run aborts on an unsupported BitsStored in file f (all prior files
non-fatal), f's metadata JSON write has already been performed — it is
among the run's metadata writes — while no manifest is written and no
manifest entry records f. -/
theorem C10_metadata_written_before_abort (fields : List String)
    (pre post : List DicomFile) (f : DicomFile)
    (hpre : ∀ g ∈ pre, (convert_dicom_to_data g fields).fatal = none)
    (r c b : Nat) (pd : List Nat)
    (hr : f.rows = some r) (hr1 : 1 ≤ r)
    (hc : f.columns = some c) (hc1 : 1 ≤ c)
    (hb : f.bitsStored = some b) (hb8 : b ≠ 8) (hb16 : b ≠ 16) (hb0 : b ≠ 0)
    (hpd : f.pixelData = some pd) (hpdne : pd ≠ []) :
    (convert_dicom_to_data f fields).metadataWrite =
      (jsonPathOf f.stem, metadataJson f.meta (redactFold f.data fields).1) ∧
    (convert_dicom_to_data f fields).metadataWrite ∈
      (processFiles fields (pre ++ f :: post)).metaWrites ∧
    (processFiles fields (pre ++ f :: post)).fatal =
      some ("Unrecognized DICOM BitsStored value " ++ toString b) ∧
    (dicom2json (pre ++ f :: post) fields).manifestWrite = none ∧
    (processFiles fields (pre ++ f :: post)).converted_data =
      (processFiles fields pre).converted_data := by
  have hconv := convert_eq_fatal f fields r c b pd hr hr1 hc hc1 hb hb8 hb16 hb0 hpd hpdne
  have habort := processFiles_abort fields pre f post hpre
    ("Unrecognized DICOM BitsStored value " ++ toString b) (by rw [hconv])
  refine ⟨by rw [hconv], habort.2.1, habort.1, ?_, habort.2.2⟩
  refine dicom2json_manifest_none_of_fatal _ fields ?_
  rw [habort.1]
  rfl

/-- Claim C10 witness: a single-file run aborting on BitsStored = 12 has
that file's metadata write on disk but no manifest. -/
theorem C10_metadata_written_before_abort_witness :
    (convert_dicom_to_data
        ⟨"bad2.dcm", "bad2", [], [], some 1, some 1, some 12, some [9]⟩ []).metadataWrite ∈
      (processFiles [] ([] ++ ⟨"bad2.dcm", "bad2", [], [], some 1, some 1, some 12, some [9]⟩ :: [])).metaWrites ∧
    (dicom2json ([] ++ ⟨"bad2.dcm", "bad2", [], [], some 1, some 1, some 12, some [9]⟩ :: [])
        []).manifestWrite = none :=
  ⟨(C10_metadata_written_before_abort [] [] []
      ⟨"bad2.dcm", "bad2", [], [], some 1, some 1, some 12, some [9]⟩ (by simp)
      1 1 12 [9] rfl (by decide) rfl (by decide) rfl (by decide) (by decide)
      (by decide) rfl (by decide)).2.1,
   (C10_metadata_written_before_abort [] [] []
      ⟨"bad2.dcm", "bad2", [], [], some 1, some 1, some 12, some [9]⟩ (by simp)
      1 1 12 [9] rfl (by decide) rfl (by decide) rfl (by decide) (by decide)
      (by decide) rfl (by decide)).2.2.2.1⟩

end DicomJson
